import Mathlib

/-!
Verification of the Mandelbrot renderer (files main.py and main2.py).

Complex numbers are embedded as pairs of rationals (exact arithmetic in
place of IEEE doubles, the standard idealization); the magnitude test
abs z > 2 is embedded as the squared-magnitude test normSq z > 4, which
is equivalent over exact arithmetic.
-/

/-- A complex number as a pair (real part, imaginary part). -/
abbrev Cx : Type := ℚ × ℚ

/-- Complex addition. -/
def cAdd (a b : Cx) : Cx := (a.1 + b.1, a.2 + b.2)

/-- Complex multiplication. -/
def cMul (a b : Cx) : Cx := (a.1 * b.1 - a.2 * b.2, a.1 * b.2 + a.2 * b.1)

/-- Squared magnitude of a complex number. -/
def normSq (a : Cx) : ℚ := a.1 * a.1 + a.2 * a.2

/-- One step of the quadratic map z * z + c applied by both evaluators. -/
def qstep (c z : Cx) : Cx := cAdd (cMul z z) c

/-- The sequence of values tested by the evaluators: the scalar loop in
main.py starts from z = c and tests z before each update, so the value
tested at loop index n is orbit c n, with orbit c 0 = c. -/
def orbit (c : Cx) : ℕ → Cx
  | 0 => c
  | n + 1 => qstep c (orbit c n)

namespace Main1

/-- Loop of mandelbrot in main.py (lines 34-39): for n in range(fuel),
if abs z > 2 return n, else z = z * z + c; none when the fuel runs out.
The accumulator n records how many loop indices were already consumed. -/
def mandelbrotGo (c z : Cx) : ℕ → ℕ → Option ℕ
  | 0, _ => none
  | fuel + 1, n =>
    if 4 < normSq z then some n else mandelbrotGo c (qstep c z) fuel (n + 1)

/-- Function mandelbrot of main.py: the number of loop iterations before
escape, or max_iter - 1 (as an integer, faithful to Python int) when the
point does not escape within max_iter iterations. -/
def mandelbrot (c : Cx) (max_iter : ℕ) : ℤ :=
  match mandelbrotGo c c max_iter 0 with
  | some n => (n : ℤ)
  | none => (max_iter : ℤ) - 1

end Main1

namespace Main2

/-- Per-point state of the masked sweep of mandelbrot in main2.py
(lines 34-43): the current z value, the mask bit (true while the point
has not escaped), and the divtime entry. -/
structure BPoint where
  z : Cx
  mask : Bool
  divtime : ℤ
deriving DecidableEq, Repr

/-- One global iteration step i of the masked sweep, projected to a single
point: z[mask] = z[mask] * z[mask] + c[mask] updates z only where the mask
holds; mask, old_mask = np.abs(z) <= 2, mask recomputes the mask; and
divtime[mask ^ old_mask] = i stamps the points whose mask just changed.
All numpy operations involved are elementwise, so the array algorithm is
exactly the pointwise lifting of this step. -/
def bStep (c : Cx) (i : ℕ) (s : BPoint) : BPoint :=
  let z' := if s.mask then qstep c s.z else s.z
  let mask' := decide (normSq z' ≤ 4)
  let divtime' := if mask' ≠ s.mask then (i : ℤ) else s.divtime
  ⟨z', mask', divtime'⟩

/-- Initial per-point state of mandelbrot in main2.py (lines 34-36):
z = 0, divtime = max_iter, mask = true. -/
def bInit (d : ℤ) : BPoint := ⟨((0 : ℚ), (0 : ℚ)), true, d⟩

/-- The state of one point after the loop for i in range(m) of the masked
sweep, starting from the given divtime initialization. -/
def bFold (c : Cx) (d : ℤ) (m : ℕ) : BPoint :=
  (List.range m).foldl (fun s i => bStep c i s) (bInit d)

/-- Function mandelbrot of main2.py, projected to one entry of the input
array: the divtime value for that point after max_iter masked sweeps. -/
def mandelbrot (c : Cx) (max_iter : ℕ) : ℤ :=
  (bFold c (max_iter : ℤ) max_iter).divtime

end Main2

/-- Search for the first index k in [n, n + fuel) whose orbit value has
squared magnitude above 4; specification device used to relate the two
evaluators. -/
def firstEscape (c : Cx) : ℕ → ℕ → Option ℕ
  | 0, _ => none
  | fuel + 1, n =>
    if 4 < normSq (orbit c n) then some n else firstEscape c fuel (n + 1)

/-- Whether the point escapes within m iterations. -/
def escapes (c : Cx) (m : ℕ) : Bool := (firstEscape c m 0).isSome

lemma orbit_succ (c : Cx) (n : ℕ) : orbit c (n + 1) = qstep c (orbit c n) := rfl

lemma orbit_zero (k : ℕ) : orbit ((0 : ℚ), (0 : ℚ)) k = ((0 : ℚ), (0 : ℚ)) := by
  induction k with
  | zero => rfl
  | succ n ih => rw [orbit_succ, ih]; simp [qstep, cMul, cAdd]

lemma normSq_zero : normSq ((0 : ℚ), (0 : ℚ)) = 0 := by
  simp [normSq]

lemma go_eq_fe (c : Cx) :
    ∀ fuel n, Main1.mandelbrotGo c (orbit c n) fuel n = firstEscape c fuel n := by
  intro fuel
  induction fuel with
  | zero => intro n; rfl
  | succ f ih =>
    intro n
    simp only [Main1.mandelbrotGo, firstEscape]
    by_cases h : 4 < normSq (orbit c n)
    · simp [h]
    · simp only [h, if_neg, ite_false]
      rw [← orbit_succ, ih]

lemma fe_none_iff (c : Cx) :
    ∀ fuel n, firstEscape c fuel n = none ↔
      ∀ k, n ≤ k → k < n + fuel → normSq (orbit c k) ≤ 4 := by
  intro fuel
  induction fuel with
  | zero =>
    intro n
    simp only [firstEscape]
    constructor
    · intro _ k hk1 hk2; omega
    · intro _; trivial
  | succ f ih =>
    intro n
    simp only [firstEscape]
    by_cases h : 4 < normSq (orbit c n)
    · simp only [h, ite_true]
      constructor
      · intro hcontra; exact absurd hcontra (by simp)
      · intro H; exact absurd (H n (le_refl n) (by omega)) (by exact not_le.mpr h)
    · simp only [h, ite_false, ih]
      constructor
      · intro H k hk1 hk2
        rcases Nat.eq_or_lt_of_le hk1 with heq | hlt
        · exact heq ▸ le_of_not_lt h
        · exact H k hlt (by omega)
      · intro H k hk1 hk2
        exact H k (by omega) (by omega)

lemma fe_some_spec (c : Cx) :
    ∀ fuel n j, firstEscape c fuel n = some j →
      n ≤ j ∧ j < n + fuel ∧ 4 < normSq (orbit c j) ∧
        ∀ k, n ≤ k → k < j → normSq (orbit c k) ≤ 4 := by
  intro fuel
  induction fuel with
  | zero => intro n j h; exact absurd h (by simp [firstEscape])
  | succ f ih =>
    intro n j h
    simp only [firstEscape] at h
    by_cases hn : 4 < normSq (orbit c n)
    · simp only [hn, ite_true, Option.some.injEq] at h
      subst h
      exact ⟨le_refl n, by omega, hn, fun k hk1 hk2 => by omega⟩
    · simp only [hn, ite_false] at h
      obtain ⟨h1, h2, h3, h4⟩ := ih (n + 1) j h
      refine ⟨by omega, by omega, h3, fun k hk1 hk2 => ?_⟩
      rcases Nat.eq_or_lt_of_le hk1 with heq | hlt
      · exact heq ▸ le_of_not_lt hn
      · exact h4 k hlt hk2

lemma mandelbrot1_of_none (c : Cx) (m : ℕ) (h : firstEscape c m 0 = none) :
    Main1.mandelbrot c m = (m : ℤ) - 1 := by
  have := go_eq_fe c m 0
  rw [show orbit c 0 = c from rfl] at this
  simp [Main1.mandelbrot, this, h]

lemma mandelbrot1_of_some (c : Cx) (m : ℕ) (j : ℕ) (h : firstEscape c m 0 = some j) :
    Main1.mandelbrot c m = (j : ℤ) := by
  have := go_eq_fe c m 0
  rw [show orbit c 0 = c from rfl] at this
  simp [Main1.mandelbrot, this, h]

lemma bFold_zero (c : Cx) (d : ℤ) : Main2.bFold c d 0 = Main2.bInit d := rfl

lemma bFold_succ (c : Cx) (d : ℤ) (m : ℕ) :
    Main2.bFold c d (m + 1) = Main2.bStep c m (Main2.bFold c d m) := by
  simp [Main2.bFold, List.range_succ]

lemma bStep_of_mask_le (c : Cx) (i : ℕ) (z : Cx) (d : ℤ)
    (h : normSq (qstep c z) ≤ 4) :
    Main2.bStep c i ⟨z, true, d⟩ = ⟨qstep c z, true, d⟩ := by
  simp [Main2.bStep, h]

lemma bStep_of_mask_gt (c : Cx) (i : ℕ) (z : Cx) (d : ℤ)
    (h : 4 < normSq (qstep c z)) :
    Main2.bStep c i ⟨z, true, d⟩ = ⟨qstep c z, false, (i : ℤ)⟩ := by
  simp [Main2.bStep, not_le.mpr h]

lemma bStep_of_unmasked (c : Cx) (i : ℕ) (z : Cx) (d : ℤ)
    (h : 4 < normSq z) :
    Main2.bStep c i ⟨z, false, d⟩ = ⟨z, false, d⟩ := by
  simp [Main2.bStep, not_le.mpr h]

lemma qstep_zero (c : Cx) : qstep c ((0 : ℚ), (0 : ℚ)) = c := by
  simp [qstep, cMul, cAdd]

lemma bFold_noEscape (c : Cx) (d : ℤ) :
    ∀ m, (∀ k, k ≤ m → normSq (orbit c k) ≤ 4) →
      Main2.bFold c d (m + 1) = ⟨orbit c m, true, d⟩ := by
  intro m
  induction m with
  | zero =>
    intro H
    rw [bFold_succ, bFold_zero, Main2.bInit]
    have h0 : qstep c ((0 : ℚ), (0 : ℚ)) = orbit c 0 := qstep_zero c
    rw [show (Main2.BPoint.mk ((0 : ℚ), (0 : ℚ)) true d) =
      Main2.BPoint.mk ((0 : ℚ), (0 : ℚ)) true d from rfl]
    rw [bStep_of_mask_le c 0 _ d (by rw [h0]; exact H 0 (le_refl 0)), h0]
  | succ n ih =>
    intro H
    rw [bFold_succ, ih (fun k hk => H k (by omega)),
      bStep_of_mask_le c (n + 1) _ d (by rw [← orbit_succ]; exact H (n + 1) (le_refl _)),
      ← orbit_succ]

lemma bFold_escape (c : Cx) (d : ℤ) (j : ℕ)
    (hmin : ∀ k, k < j → normSq (orbit c k) ≤ 4)
    (hesc : 4 < normSq (orbit c j)) :
    ∀ m, j < m → Main2.bFold c d m = ⟨orbit c j, false, (j : ℤ)⟩ := by
  intro m
  induction m with
  | zero => intro h; omega
  | succ n ih =>
    intro h
    rcases Nat.lt_or_ge j n with hlt | hge
    · rw [bFold_succ, ih hlt, bStep_of_unmasked c n _ _ hesc]
    · have hj : j = n := by omega
      subst hj
      rcases Nat.eq_zero_or_pos j with h0 | hpos
      · subst h0
        rw [bFold_succ, bFold_zero, Main2.bInit,
          bStep_of_mask_gt c 0 _ d (by rw [qstep_zero]; exact hesc), qstep_zero]
        rfl
      · obtain ⟨n', rfl⟩ : ∃ n', j = n' + 1 := ⟨j - 1, by omega⟩
        rw [bFold_succ, bFold_noEscape c d n' (fun k hk => hmin k (by omega)),
          bStep_of_mask_gt c (n' + 1) _ d (by rw [← orbit_succ]; exact hesc),
          ← orbit_succ]

lemma mandelbrot2_of_none (c : Cx) (m : ℕ) (h : firstEscape c m 0 = none) :
    Main2.mandelbrot c m = (m : ℤ) := by
  rcases Nat.eq_zero_or_pos m with h0 | hpos
  · subst h0; rfl
  · obtain ⟨m', rfl⟩ : ∃ m', m = m' + 1 := ⟨m - 1, by omega⟩
    have H := (fe_none_iff c (m' + 1) 0).mp h
    rw [Main2.mandelbrot, bFold_noEscape c _ m' (fun k hk => H k (by omega) (by omega))]

lemma mandelbrot2_of_some (c : Cx) (m : ℕ) (j : ℕ) (h : firstEscape c m 0 = some j) :
    Main2.mandelbrot c m = (j : ℤ) := by
  obtain ⟨h1, h2, h3, h4⟩ := fe_some_spec c m 0 j h
  rw [Main2.mandelbrot, bFold_escape c _ j (fun k hk => h4 k (by omega) hk) h3 m (by omega)]

/-- An RGB color triple. -/
abbrev Color : Type := ℕ × ℕ × ℕ

/-- The color table built at startup in both files (main.py lines 17-20,
main2.py lines 18-21): the list starts with black, and for i in
range(1, max_iter) the entry (i % 256, i % 128, i % 64) is appended. -/
def colorsList (max_iter : ℕ) : List Color :=
  ((0, 0, 0) : Color) :: (List.range' 1 (max_iter - 1)).map (fun i => (i % 256, i % 128, i % 64))

lemma colorsList_length (m : ℕ) (h : 1 ≤ m) : (colorsList m).length = m := by
  simp [colorsList]
  omega

namespace Main1

/-- Pixel-to-complex mapping of draw_mandelbrot in main.py (lines 61-63):
re = xmin + (x / width) * (xmax - xmin) and
im = ymin + (y / height) * (ymax - ymin). -/
def pixelCoord (xmin xmax ymin ymax : ℚ) (width height x y : ℕ) : Cx :=
  (xmin + ((x : ℚ) / (width : ℚ)) * (xmax - xmin),
   ymin + ((y : ℚ) / (height : ℚ)) * (ymax - ymin))

/-- Color written by draw_mandelbrot in main.py (lines 64-65):
colors[mandelbrot(c, max_iter)], an unguarded list lookup. -/
def pixelColor (c : Cx) (max_iter : ℕ) : Color :=
  (colorsList max_iter).getD (mandelbrot c max_iter).toNat ((0, 0, 0))

end Main1

/-- Value at index i of np.linspace a b n: a + i * (b - a) / (n - 1),
the endpoint-inclusive subdivision used by main2.py. -/
def linspace (a b : ℚ) (n i : ℕ) : ℚ := a + (i : ℚ) * (b - a) / ((n : ℚ) - 1)

namespace Main2

/-- The coordinate grid C = X + 1j * Y of draw_mandelbrot in main2.py
(lines 60-63): np.linspace along each axis, combined by np.meshgrid, so
the entry at row y, column x is
(linspace xmin xmax width x, linspace ymin ymax height y). -/
def gridC (xmin xmax ymin ymax : ℚ) (width height : ℕ) : List (List Cx) :=
  (List.range height).map (fun y => (List.range width).map (fun x =>
    (linspace xmin xmax width x, linspace ymin ymax height y)))

/-- Clamping of an iteration count in draw_mandelbrot of main2.py
(lines 76-78): if color >= len(colors), replace it by len(colors) - 1. -/
def clampColor (color : ℤ) (len : ℕ) : ℤ :=
  if (len : ℤ) ≤ color then (len : ℤ) - 1 else color

/-- Color written by draw_mandelbrot in main2.py (lines 76-79): clamp the
iteration count, then look the table up. -/
def pixelColor (c : Cx) (max_iter : ℕ) : Color :=
  (colorsList max_iter).getD
    (clampColor (mandelbrot c max_iter) (colorsList max_iter).length).toNat ((0, 0, 0))

/-- The batched evaluator applied to a 2D coordinate array: every numpy
operation in mandelbrot of main2.py acts elementwise, so the array result
is the pointwise lifting of the per-point projection. -/
def mandelGrid (C : List (List Cx)) (max_iter : ℕ) : List (List ℤ) :=
  C.map (fun row => row.map (fun c => mandelbrot c max_iter))

/-- Row slices C[i : i + cs] for i in range(0, height, cs), as submitted
to the executor in draw_mandelbrot of main2.py (lines 66-70); the fuel
argument bounds the recursion by the number of rows. -/
def chunkGo {α : Type} (cs : ℕ) : ℕ → List α → List (List α)
  | 0, _ => []
  | _, [] => []
  | fuel + 1, l => l.take cs :: chunkGo cs fuel (l.drop cs)

/-- The list of row bands C[0 : cs], C[cs : 2 * cs], ... of main2.py. -/
def chunkList {α : Type} (cs : ℕ) (l : List α) : List (List α) :=
  chunkGo cs l.length l

/-- Assembly of completed band results (main2.py lines 73-79): band i's
row y is written at vertical position y + i * chunk_size, i.e. the bands
are concatenated in submission order. -/
def assemble (bands : List (List (List ℤ))) : List (List ℤ) := bands.flatten

end Main2

/-- The viewport bounds shared by both files. -/
structure Viewport where
  xmin : ℚ
  xmax : ℚ
  ymin : ℚ
  ymax : ℚ
deriving DecidableEq, Repr

/-- The initial boundaries of both files (lines 11-15): real axis
[-2.5, 1.5], imaginary axis [-2.0, 2.0]. -/
def defaultViewport : Viewport := ⟨-5/2, 3/2, -2, 2⟩

/-- Mouse-click handling of main in main.py (lines 117-137), identical in
main2.py (lines 149-169): the click is mapped to a center point in the
complex plane; button 1 scales both spans by zoom_factor, button 3 scales
them by its reciprocal, any other button leaves the viewport unchanged;
the new bounds are placed symmetrically around the center. -/
def handleClick (v : Viewport) (zoom_factor : ℚ) (width height : ℕ)
    (x_click y_click : ℕ) (button : ℕ) : Viewport :=
  let re_center := v.xmin + ((x_click : ℚ) / (width : ℚ)) * (v.xmax - v.xmin)
  let im_center := v.ymin + ((y_click : ℚ) / (height : ℚ)) * (v.ymax - v.ymin)
  if button = 1 then
    let zoom_width := (v.xmax - v.xmin) * zoom_factor
    let zoom_height := (v.ymax - v.ymin) * zoom_factor
    ⟨re_center - zoom_width / 2, re_center + zoom_width / 2,
     im_center - zoom_height / 2, im_center + zoom_height / 2⟩
  else if button = 3 then
    let zoom_width := (v.xmax - v.xmin) / zoom_factor
    let zoom_height := (v.ymax - v.ymin) / zoom_factor
    ⟨re_center - zoom_width / 2, re_center + zoom_width / 2,
     im_center - zoom_height / 2, im_center + zoom_height / 2⟩
  else v

lemma fe_zero_none (fuel n : ℕ) : firstEscape ((0 : ℚ), (0 : ℚ)) fuel n = none := by
  rw [fe_none_iff]
  intro k _ _
  rw [orbit_zero, normSq_zero]
  norm_num

lemma escapes_zero_false (m : ℕ) : escapes ((0 : ℚ), (0 : ℚ)) m = false := by
  unfold escapes
  rw [fe_zero_none]
  rfl

lemma orbit_negone (k : ℕ) :
    orbit ((-1 : ℚ), (0 : ℚ)) k
      = if k % 2 = 0 then ((-1 : ℚ), (0 : ℚ)) else ((0 : ℚ), (0 : ℚ)) := by
  induction k with
  | zero => rfl
  | succ n ih =>
    rw [orbit_succ, ih]
    by_cases h : n % 2 = 0
    · have h2 : (n + 1) % 2 = 1 := by omega
      simp [h, h2, qstep, cMul, cAdd]
    · have h2 : (n + 1) % 2 = 0 := by omega
      simp [h, h2, qstep, cMul, cAdd]

lemma fe_negone_none (fuel n : ℕ) : firstEscape ((-1 : ℚ), (0 : ℚ)) fuel n = none := by
  rw [fe_none_iff]
  intro k _ _
  rw [orbit_negone]
  by_cases h : k % 2 = 0 <;> simp [h, normSq]

lemma mandelbrot1_bounds (c : Cx) (m : ℕ) (h : 1 ≤ m) :
    0 ≤ Main1.mandelbrot c m ∧ Main1.mandelbrot c m ≤ (m : ℤ) - 1 := by
  cases hfe : firstEscape c m 0 with
  | none => rw [mandelbrot1_of_none c m hfe]; omega
  | some j =>
    obtain ⟨_, h2, _, _⟩ := fe_some_spec c m 0 j hfe
    rw [mandelbrot1_of_some c m j hfe]
    omega

lemma mandelbrot2_bounds (c : Cx) (m : ℕ) :
    0 ≤ Main2.mandelbrot c m ∧ Main2.mandelbrot c m ≤ (m : ℤ) := by
  cases hfe : firstEscape c m 0 with
  | none => rw [mandelbrot2_of_none c m hfe]; omega
  | some j =>
    obtain ⟨_, h2, _, _⟩ := fe_some_spec c m 0 j hfe
    rw [mandelbrot2_of_some c m j hfe]
    omega

set_option maxRecDepth 8192 in
lemma colorsList256_at255 : (colorsList 256).getD 255 ((0, 0, 0)) = (255, 127, 63) := by
  decide

lemma gridC_get (a b u v : ℚ) (w h x y : ℕ) (hx : x < w) (hy : y < h) :
    ((Main2.gridC a b u v w h).getD y []).getD x ((0 : ℚ), (0 : ℚ))
      = (linspace a b w x, linspace u v h y) := by
  simp [Main2.gridC, List.getD_eq_getElem?_getD, List.getElem?_map, List.getElem?_range, hx, hy]

lemma chunkGo_flatten {α : Type} (cs : ℕ) (hcs : 1 ≤ cs) :
    ∀ fuel (l : List α), l.length ≤ fuel → (Main2.chunkGo cs fuel l).flatten = l := by
  intro fuel
  induction fuel with
  | zero =>
    intro l h
    have : l = [] := List.eq_nil_of_length_eq_zero (by omega)
    subst this
    rfl
  | succ f ih =>
    intro l h
    cases l with
    | nil => rfl
    | cons a t =>
      simp only [Main2.chunkGo, List.flatten_cons]
      rw [ih _ (by simp only [List.length_drop]; simp at h ⊢; omega)]
      exact List.take_append_drop cs (a :: t)

lemma chunkList_flatten {α : Type} (cs : ℕ) (hcs : 1 ≤ cs) (l : List α) :
    (Main2.chunkList cs l).flatten = l :=
  chunkGo_flatten cs hcs l.length l (le_refl _)

/-- C1 (amended): the batched evaluator of main2.py agrees exactly with
the scalar evaluator of main.py on every point that escapes within
max_iter iterations; on every non-escaping point the batched evaluator
returns max_iter, one more than the scalar evaluator's max_iter - 1. -/
theorem c1_batched_vs_scalar (c : Cx) (m : ℕ) :
    Main2.mandelbrot c m =
      if escapes c m then Main1.mandelbrot c m else Main1.mandelbrot c m + 1 := by
  cases h : firstEscape c m 0 with
  | none =>
    rw [mandelbrot2_of_none c m h, mandelbrot1_of_none c m h]
    simp only [escapes, h, Option.isSome_none, Bool.false_eq_true, if_false]
    omega
  | some j =>
    rw [mandelbrot2_of_some c m j h, mandelbrot1_of_some c m j h]
    simp [escapes, h]

/-- C1 counterexample: at the interior point c = 0 with the configured
max_iter = 256, the batched evaluator returns 256 while the scalar
evaluator returns 255, so the two do not agree on every point. -/
theorem c1_counterexample :
    Main2.mandelbrot ((0 : ℚ), (0 : ℚ)) 256 ≠ Main1.mandelbrot ((0 : ℚ), (0 : ℚ)) 256 := by
  rw [mandelbrot2_of_none _ _ (fe_zero_none 256 0), mandelbrot1_of_none _ _ (fe_zero_none 256 0)]
  norm_num

/-- C9: the scalar evaluator returns max_iter - 1 for c = 0 and for
c = -1, for every max_iter (neither orbit ever exceeds magnitude 2). -/
theorem c9_interior_points (m : ℕ) :
    Main1.mandelbrot ((0 : ℚ), (0 : ℚ)) m = (m : ℤ) - 1 ∧
    Main1.mandelbrot ((-1 : ℚ), (0 : ℚ)) m = (m : ℤ) - 1 :=
  ⟨mandelbrot1_of_none _ _ (fe_zero_none m 0), mandelbrot1_of_none _ _ (fe_negone_none m 0)⟩

/-- C4 (amended): for max_iter >= 1 the scalar evaluator's result lies in
[0, max_iter - 1]; the batched evaluator's entries lie in [0, max_iter],
reaching max_iter (outside the claimed range) on non-escaping points. -/
theorem c4_result_ranges (c : Cx) (m : ℕ) (h : 1 ≤ m) :
    (0 ≤ Main1.mandelbrot c m ∧ Main1.mandelbrot c m ≤ (m : ℤ) - 1) ∧
    (0 ≤ Main2.mandelbrot c m ∧ Main2.mandelbrot c m ≤ (m : ℤ)) :=
  ⟨mandelbrot1_bounds c m h, mandelbrot2_bounds c m⟩

/-- C4 witness: the amended range bounds at c = 0, max_iter = 256. -/
theorem c4_result_ranges_witness :
    (0 ≤ Main1.mandelbrot ((0 : ℚ), (0 : ℚ)) 256 ∧
      Main1.mandelbrot ((0 : ℚ), (0 : ℚ)) 256 ≤ (256 : ℤ) - 1) ∧
    (0 ≤ Main2.mandelbrot ((0 : ℚ), (0 : ℚ)) 256 ∧
      Main2.mandelbrot ((0 : ℚ), (0 : ℚ)) 256 ≤ (256 : ℤ)) :=
  c4_result_ranges ((0 : ℚ), (0 : ℚ)) 256 (by norm_num)

/-- C4 counterexample: at c = 0 with max_iter = 256, the batched
evaluator's entry is 256, which is not in [0, max_iter - 1]. -/
theorem c4_counterexample :
    ¬ Main2.mandelbrot ((0 : ℚ), (0 : ℚ)) 256 ≤ (256 : ℤ) - 1 := by
  rw [mandelbrot2_of_none _ _ (fe_zero_none 256 0)]
  norm_num

/-- C10: in main.py the unguarded lookup colors[mandelbrot(c, max_iter)]
is always in bounds: the scalar result is nonnegative and strictly less
than the table length, which equals max_iter. -/
theorem c10_scalar_lookup_in_bounds (c : Cx) (m : ℕ) (h : 1 ≤ m) :
    0 ≤ Main1.mandelbrot c m ∧
    (Main1.mandelbrot c m).toNat < (colorsList m).length ∧
    (colorsList m).length = m := by
  obtain ⟨b1, b2⟩ := mandelbrot1_bounds c m h
  have hlen := colorsList_length m h
  exact ⟨b1, by omega, hlen⟩

/-- C10 witness: in-bounds lookup at c = 0, max_iter = 256. -/
theorem c10_scalar_lookup_in_bounds_witness :
    0 ≤ Main1.mandelbrot ((0 : ℚ), (0 : ℚ)) 256 ∧
    (Main1.mandelbrot ((0 : ℚ), (0 : ℚ)) 256).toNat < (colorsList 256).length ∧
    (colorsList 256).length = 256 :=
  c10_scalar_lookup_in_bounds ((0 : ℚ), (0 : ℚ)) 256 (by norm_num)

/-- C8: the clamped color index used by draw_mandelbrot in main2.py is
always in [0, max_iter - 1], in particular a valid position of the color
table, even though the batched computation can produce max_iter. -/
theorem c8_clamped_lookup (c : Cx) (m : ℕ) (h : 1 ≤ m) :
    0 ≤ Main2.clampColor (Main2.mandelbrot c m) (colorsList m).length ∧
    Main2.clampColor (Main2.mandelbrot c m) (colorsList m).length ≤ (m : ℤ) - 1 ∧
    (Main2.clampColor (Main2.mandelbrot c m) (colorsList m).length).toNat
      < (colorsList m).length := by
  obtain ⟨b1, b2⟩ := mandelbrot2_bounds c m
  rw [colorsList_length m h]
  unfold Main2.clampColor
  split_ifs with hc
  · exact ⟨by omega, by omega, by omega⟩
  · exact ⟨b1, by omega, by omega⟩

/-- C8 witness: the clamped lookup at c = 0, max_iter = 256, where the
batched result 256 exceeds the table length. -/
theorem c8_clamped_lookup_witness :
    0 ≤ Main2.clampColor (Main2.mandelbrot ((0 : ℚ), (0 : ℚ)) 256) (colorsList 256).length ∧
    Main2.clampColor (Main2.mandelbrot ((0 : ℚ), (0 : ℚ)) 256) (colorsList 256).length
      ≤ (256 : ℤ) - 1 ∧
    (Main2.clampColor (Main2.mandelbrot ((0 : ℚ), (0 : ℚ)) 256) (colorsList 256).length).toNat
      < (colorsList 256).length :=
  c8_clamped_lookup ((0 : ℚ), (0 : ℚ)) 256 (by norm_num)

/-- C2 (amended): with the configured max_iter = 256, a point that does
not escape is assigned index max_iter - 1 = 255 of the color table (the
scalar result is 255, and the batched result 256 is clamped to 255), so
the pixel is drawn with the last entry (255, 127, 63), not with the
index-0 black entry. -/
theorem c2_interior_uses_last_index (c : Cx) (h : escapes c 256 = false) :
    Main1.mandelbrot c 256 = 255 ∧
    Main1.pixelColor c 256 = (255, 127, 63) ∧
    Main2.clampColor (Main2.mandelbrot c 256) (colorsList 256).length = 255 ∧
    Main2.pixelColor c 256 = (255, 127, 63) := by
  have hfe : firstEscape c 256 0 = none := by
    unfold escapes at h
    exact Option.not_isSome_iff_eq_none.mp (by simp [h])
  have h1 : Main1.mandelbrot c 256 = 255 := by
    rw [mandelbrot1_of_none _ _ hfe]; norm_num
  have h2 : Main2.mandelbrot c 256 = 256 := by
    rw [mandelbrot2_of_none _ _ hfe]; norm_num
  have hlen : (colorsList 256).length = 256 := colorsList_length 256 (by norm_num)
  have hclamp : Main2.clampColor (Main2.mandelbrot c 256) (colorsList 256).length = 255 := by
    rw [h2, hlen]
    unfold Main2.clampColor
    norm_num
  refine ⟨h1, ?_, hclamp, ?_⟩
  · rw [Main1.pixelColor, h1]
    simpa using colorsList256_at255
  · rw [Main2.pixelColor, hclamp]
    simpa using colorsList256_at255

/-- C2 witness: the amended statement at the interior point c = 0. -/
theorem c2_interior_uses_last_index_witness :
    Main1.mandelbrot ((0 : ℚ), (0 : ℚ)) 256 = 255 ∧
    Main1.pixelColor ((0 : ℚ), (0 : ℚ)) 256 = (255, 127, 63) ∧
    Main2.clampColor (Main2.mandelbrot ((0 : ℚ), (0 : ℚ)) 256) (colorsList 256).length = 255 ∧
    Main2.pixelColor ((0 : ℚ), (0 : ℚ)) 256 = (255, 127, 63) :=
  c2_interior_uses_last_index ((0 : ℚ), (0 : ℚ)) (escapes_zero_false 256)

/-- C2 counterexample: c = 0 does not escape within the configured
max_iter = 256, yet the scalar evaluator's result is not index 0 and the
drawn pixel is not the interior color black. -/
theorem c2_counterexample :
    escapes ((0 : ℚ), (0 : ℚ)) 256 = false ∧
    Main1.mandelbrot ((0 : ℚ), (0 : ℚ)) 256 ≠ 0 ∧
    Main1.pixelColor ((0 : ℚ), (0 : ℚ)) 256 ≠ (0, 0, 0) := by
  have h1 : Main1.mandelbrot ((0 : ℚ), (0 : ℚ)) 256 = 255 := by
    rw [mandelbrot1_of_none _ _ (fe_zero_none 256 0)]; norm_num
  refine ⟨escapes_zero_false 256, by rw [h1]; norm_num, ?_⟩
  rw [Main1.pixelColor, h1]
  have : (colorsList 256).getD ((255 : ℤ)).toNat ((0, 0, 0)) = (255, 127, 63) := by
    simpa using colorsList256_at255
  rw [this]
  decide

/-- C3 (amended): main.py maps pixel (x, y) to
re = xmin + (x / width) * (xmax - xmin),
im = ymin + (y / height) * (ymax - ymin), while main2.py builds its grid
with np.linspace, whose endpoint-inclusive mapping is
re = xmin + (x / (width - 1)) * (xmax - xmin),
im = ymin + (y / (height - 1)) * (ymax - ymin); the two mappings disagree
at every pixel with x >= 1 (for a non-degenerate real axis), so the two
renderers do not use the same mapping. -/
theorem c3_pixel_mappings (a b u v : ℚ) (w h x y : ℕ)
    (hw : 2 ≤ w) (_hh : 2 ≤ h) (hx : x < w) (hy : y < h) (hab : a < b) (hx1 : 1 ≤ x) :
    Main1.pixelCoord a b u v w h x y
      = (a + ((x : ℚ) / (w : ℚ)) * (b - a), u + ((y : ℚ) / (h : ℚ)) * (v - u)) ∧
    ((Main2.gridC a b u v w h).getD y []).getD x ((0 : ℚ), (0 : ℚ))
      = (a + ((x : ℚ) / ((w : ℚ) - 1)) * (b - a),
         u + ((y : ℚ) / ((h : ℚ) - 1)) * (v - u)) ∧
    (Main1.pixelCoord a b u v w h x y).1
      ≠ (((Main2.gridC a b u v w h).getD y []).getD x ((0 : ℚ), (0 : ℚ))).1 := by
  have hgrid := gridC_get a b u v w h x y hx hy
  have hwQ : (2 : ℚ) ≤ (w : ℚ) := by exact_mod_cast hw
  have hxQ : (1 : ℚ) ≤ (x : ℚ) := by exact_mod_cast hx1
  have hw0 : (w : ℚ) ≠ 0 := by intro hc; rw [hc] at hwQ; norm_num at hwQ
  have hw1 : (w : ℚ) - 1 ≠ 0 := by intro hc; nlinarith
  have hba : (0 : ℚ) < b - a := sub_pos.mpr hab
  refine ⟨rfl, ?_, ?_⟩
  · rw [hgrid]
    unfold linspace
    simp only [Prod.mk.injEq]
    constructor <;> ring
  · rw [hgrid]
    unfold Main1.pixelCoord linspace
    dsimp only
    intro heq
    have heq2 : (x : ℚ) / w * (b - a) = (x : ℚ) * (b - a) / ((w : ℚ) - 1) := by linarith
    rw [div_mul_eq_mul_div, div_eq_div_iff hw0 hw1] at heq2
    nlinarith [mul_pos (show (0 : ℚ) < (x : ℚ) by linarith) hba]

/-- C3 counterexample: with the default viewport and an 800-pixel-wide
window, main.py maps the pixel column x = 799 to real part 1.495, while
the grid of main2.py puts real part 1.5 there: the two renderers do not
use the same pixel-to-complex mapping. -/
theorem c3_counterexample :
    (Main1.pixelCoord (-5/2) (3/2) (-2) 2 800 800 799 0).1
      ≠ (((Main2.gridC (-5/2) (3/2) (-2) 2 800 800).getD 0 []).getD 799 ((0 : ℚ), (0 : ℚ))).1 := by
  rw [gridC_get (-5/2) (3/2) (-2) 2 800 800 799 0 (by norm_num) (by norm_num)]
  norm_num [Main1.pixelCoord, linspace]

/-- C3 witness: the amended statement at the default viewport, 800 by 800
window, pixel (799, 400). -/
theorem c3_pixel_mappings_witness :
    Main1.pixelCoord (-5/2) (3/2) (-2) 2 800 800 799 400
      = ((-5/2 : ℚ) + ((799 : ℚ) / (800 : ℚ)) * ((3/2 : ℚ) - (-5/2)),
         (-2 : ℚ) + ((400 : ℚ) / (800 : ℚ)) * ((2 : ℚ) - (-2))) ∧
    ((Main2.gridC (-5/2) (3/2) (-2) 2 800 800).getD 400 []).getD 799 ((0 : ℚ), (0 : ℚ))
      = ((-5/2 : ℚ) + ((799 : ℚ) / ((800 : ℚ) - 1)) * ((3/2 : ℚ) - (-5/2)),
         (-2 : ℚ) + ((400 : ℚ) / ((800 : ℚ) - 1)) * ((2 : ℚ) - (-2))) ∧
    (Main1.pixelCoord (-5/2) (3/2) (-2) 2 800 800 799 400).1
      ≠ (((Main2.gridC (-5/2) (3/2) (-2) 2 800 800).getD 400 []).getD 799 ((0 : ℚ), (0 : ℚ))).1 := by
  have := c3_pixel_mappings (-5/2) (3/2) (-2) 2 800 800 799 400
    (by norm_num) (by norm_num) (by norm_num) (by norm_num) (by norm_num) (by norm_num)
  simpa using this

lemma handleClick_button1 (v : Viewport) (f : ℚ) (w h xc yc : ℕ) :
    handleClick v f w h xc yc 1 =
      ⟨v.xmin + ((xc : ℚ) / (w : ℚ)) * (v.xmax - v.xmin) - (v.xmax - v.xmin) * f / 2,
       v.xmin + ((xc : ℚ) / (w : ℚ)) * (v.xmax - v.xmin) + (v.xmax - v.xmin) * f / 2,
       v.ymin + ((yc : ℚ) / (h : ℚ)) * (v.ymax - v.ymin) - (v.ymax - v.ymin) * f / 2,
       v.ymin + ((yc : ℚ) / (h : ℚ)) * (v.ymax - v.ymin) + (v.ymax - v.ymin) * f / 2⟩ := by
  simp [handleClick]

lemma handleClick_button3 (v : Viewport) (f : ℚ) (w h xc yc : ℕ) :
    handleClick v f w h xc yc 3 =
      ⟨v.xmin + ((xc : ℚ) / (w : ℚ)) * (v.xmax - v.xmin) - (v.xmax - v.xmin) / f / 2,
       v.xmin + ((xc : ℚ) / (w : ℚ)) * (v.xmax - v.xmin) + (v.xmax - v.xmin) / f / 2,
       v.ymin + ((yc : ℚ) / (h : ℚ)) * (v.ymax - v.ymin) - (v.ymax - v.ymin) / f / 2,
       v.ymin + ((yc : ℚ) / (h : ℚ)) * (v.ymax - v.ymin) + (v.ymax - v.ymin) / f / 2⟩ := by
  simp [handleClick]

/-- C5: a left-click produces a viewport whose width and height are the
old spans times zoom_factor, centered on the complex point the click maps
to; a right-click divides both spans by zoom_factor (times 10 for factor
1/10); and from the default viewport, factor 0.1, click (400, 400), the
new bounds are real [-0.7, -0.3], imaginary [-0.2, 0.2] (center
(-0.5, 0), width and height 0.4). -/
theorem c5_zoom_click (v : Viewport) (f : ℚ) (w h xc yc : ℕ) :
    ((handleClick v f w h xc yc 1).xmax - (handleClick v f w h xc yc 1).xmin
        = (v.xmax - v.xmin) * f) ∧
    ((handleClick v f w h xc yc 1).ymax - (handleClick v f w h xc yc 1).ymin
        = (v.ymax - v.ymin) * f) ∧
    (((handleClick v f w h xc yc 1).xmin + (handleClick v f w h xc yc 1).xmax) / 2
        = v.xmin + ((xc : ℚ) / (w : ℚ)) * (v.xmax - v.xmin)) ∧
    (((handleClick v f w h xc yc 1).ymin + (handleClick v f w h xc yc 1).ymax) / 2
        = v.ymin + ((yc : ℚ) / (h : ℚ)) * (v.ymax - v.ymin)) ∧
    ((handleClick v f w h xc yc 3).xmax - (handleClick v f w h xc yc 3).xmin
        = (v.xmax - v.xmin) / f) ∧
    ((handleClick v f w h xc yc 3).ymax - (handleClick v f w h xc yc 3).ymin
        = (v.ymax - v.ymin) / f) ∧
    ((handleClick v (1/10) w h xc yc 3).xmax - (handleClick v (1/10) w h xc yc 3).xmin
        = (v.xmax - v.xmin) * 10) ∧
    ((handleClick v (1/10) w h xc yc 3).ymax - (handleClick v (1/10) w h xc yc 3).ymin
        = (v.ymax - v.ymin) * 10) ∧
    handleClick defaultViewport (1/10) 800 800 400 400 1
      = ⟨-7/10, -3/10, -1/5, 1/5⟩ := by
  refine ⟨?_, ?_, ?_, ?_, ?_, ?_, ?_, ?_, ?_⟩
  · rw [handleClick_button1]; ring
  · rw [handleClick_button1]; ring
  · rw [handleClick_button1]; ring
  · rw [handleClick_button1]; ring
  · rw [handleClick_button3]; ring
  · rw [handleClick_button3]; ring
  · rw [handleClick_button3]; norm_num; ring
  · rw [handleClick_button3]; norm_num; ring
  · norm_num [handleClick, defaultViewport]

/-- C6: for any click while the zoom factor lies strictly between 0 and
1, a valid viewport (min < max on both axes) stays valid: button 1
scales the spans by the factor, button 3 by its reciprocal, and any
other button leaves the viewport unchanged. -/
theorem c6_zoom_preserves_validity (v : Viewport) (f : ℚ) (w h xc yc button : ℕ)
    (h1 : 0 < f) (_h2 : f < 1) (h3 : v.xmin < v.xmax) (h4 : v.ymin < v.ymax) :
    (handleClick v f w h xc yc button).xmin < (handleClick v f w h xc yc button).xmax ∧
    (handleClick v f w h xc yc button).ymin < (handleClick v f w h xc yc button).ymax := by
  by_cases hb1 : button = 1
  · subst hb1
    rw [handleClick_button1]
    dsimp only
    have p1 := mul_pos (sub_pos.mpr h3) h1
    have p2 := mul_pos (sub_pos.mpr h4) h1
    constructor <;> linarith
  · by_cases hb3 : button = 3
    · subst hb3
      rw [handleClick_button3]
      dsimp only
      have p1 := div_pos (sub_pos.mpr h3) h1
      have p2 := div_pos (sub_pos.mpr h4) h1
      constructor <;> linarith
    · have hunchanged : handleClick v f w h xc yc button = v := by
        simp [handleClick, hb1, hb3]
      rw [hunchanged]
      exact ⟨h3, h4⟩

/-- C6 witness: validity is preserved for a left-click at (0, 0) on the
default viewport with zoom factor 1/10. -/
theorem c6_zoom_preserves_validity_witness :
    (handleClick defaultViewport (1/10) 800 800 0 0 1).xmin
        < (handleClick defaultViewport (1/10) 800 800 0 0 1).xmax ∧
    (handleClick defaultViewport (1/10) 800 800 0 0 1).ymin
        < (handleClick defaultViewport (1/10) 800 800 0 0 1).ymax :=
  c6_zoom_preserves_validity defaultViewport (1/10) 800 800 0 0 1
    (by norm_num) (by norm_num) (by norm_num [defaultViewport]) (by norm_num [defaultViewport])

/-- C7: computing the batched evaluator band by band over the row chunks
of the coordinate grid and reassembling each band at its offset (their
concatenation in submission order) gives exactly the single full-grid
computation, for any chunk size of at least one row — in particular when
the band count divides the height evenly. -/
theorem c7_chunked_equals_full (C : List (List Cx)) (m cs : ℕ) (h : 1 ≤ cs) :
    Main2.assemble ((Main2.chunkList cs C).map (fun band => Main2.mandelGrid band m))
      = Main2.mandelGrid C m := by
  show ((Main2.chunkList cs C).map
      (List.map (List.map (fun c => Main2.mandelbrot c m)))).flatten
    = C.map (List.map (fun c => Main2.mandelbrot c m))
  rw [← List.map_flatten, chunkList_flatten cs h C]

/-- C7 witness: band assembly equals the full computation on a concrete
two-row grid with one-row chunks. -/
theorem c7_chunked_equals_full_witness :
    Main2.assemble ((Main2.chunkList 1 [[((0 : ℚ), (0 : ℚ))], [((3 : ℚ), (0 : ℚ))]]).map
        (fun band => Main2.mandelGrid band 2))
      = Main2.mandelGrid [[((0 : ℚ), (0 : ℚ))], [((3 : ℚ), (0 : ℚ))]] 2 :=
  c7_chunked_equals_full [[((0 : ℚ), (0 : ℚ))], [((3 : ℚ), (0 : ℚ))]] 2 1 (by norm_num)
